import Mathlib

/-!
Verification development for the pulsar / accretion-disk interaction scripts
(`single_pulsar.py`, `pulsar_IR_flare_test.py`, `tables/__init__.py`).

The scripts evaluate a piecewise closed-form particle distribution
(injection plus synchrotron cooling) over a logarithmic Lorentz-factor grid
and a time grid, then integrate it against a single-particle synchrotron
emissivity to obtain radiated power.  We embed the arithmetic over `ℝ`.
NumPy's NaN-to-zero masking (`f[np.isnan(f)] = 0`) is modelled by explicit
zero branches at exactly the points where the floating-point evaluation
yields NaN (a fractional power of a negative base, or the logarithm of a
negative number).  `scipy.interpolate.interp1d` with its default
`bounds_error=True` is modelled by an `Except` value: a finite query outside
the node range is an error (`ValueError` in Python), a NaN query propagates
NaN.
-/

/-! ### Python name-resolution model for the basic script

`pulsar_IR_flare_test.py` refers to a bare name `isnan` inside its
particle-distribution loop.  We record the global names bound by the basic
script before that loop (its imports and module-level assignments, plus the
relevant Python builtins), the names referenced by each statement of the
loop body (lines 103-122 of the file), and a tiny sequential evaluator that
stops with a NameError at the first statement referencing an unbound name. -/

def basic_script_globals : List String :=
  ["np", "kv", "integrate", "interp1d", "plt",
   "electron_mass", "speed_light", "thomson_cross_section", "electric_charge",
   "spin_down_L", "particle_slope", "epsilon_e", "epsilon_B",
   "pericenter_dist", "Bondi_radius", "pericenter_time", "timestable",
   "Bondi_num_den", "pericenter_mag_field", "gamma_min", "gamma_max",
   "gamma_table", "particle_distribution_norm", "b",
   "gamma_cool_1", "gamma_cool_2", "particle_distribution", "f", "i"]

def python_builtins : List String :=
  ["print", "range", "str", "len", "abs", "min", "max", "sum"]

/-- The names referenced by each statement of the basic script's
particle-distribution loop body, in source order (lines 103-122).
Statement 1 (line 104, the first NaN-masking statement `f[isnan(f)] = 0`)
references the bare name `isnan`. -/
def basic_loop_body : List (List String) :=
  [["gamma_table", "gamma_min", "gamma_cool_1", "i", "b", "timestable", "particle_slope"],
   ["f", "isnan"],
   ["particle_distribution", "i", "f"],
   ["gamma_table"],
   ["gamma_cool_1", "i", "gamma_table", "gamma_max", "particle_slope"],
   ["f", "isnan"],
   ["particle_distribution", "i", "f"],
   ["gamma_table"],
   ["gamma_cool_1", "i", "gamma_table", "gamma_min", "gamma_max", "particle_slope"],
   ["f", "isnan"],
   ["particle_distribution", "i", "f"],
   ["gamma_table"],
   ["gamma_cool_2", "i", "gamma_table", "gamma_min", "b", "timestable", "particle_slope"],
   ["f", "isnan"],
   ["particle_distribution", "i", "f"],
   ["particle_distribution", "i", "particle_distribution_norm", "gamma_table", "particle_slope", "b"]]

def nameBound (env : List String) (n : String) : Bool := env.contains n

/-- Run the statements in order: a statement whose referenced names are all
bound executes and control moves on; otherwise evaluation aborts with a
NameError carrying the index of the offending statement.  On success the
number of executed statements is returned. -/
def runStmts (env : List String) : List (List String) → Nat → Except (String × Nat) Nat
  | [], k => .ok k
  | s :: rest, k =>
    if s.all (nameBound env) then runStmts env rest (k + 1)
    else .error ("NameError", k)

/-! ### The particle-distribution and synchrotron engines -/

noncomputable section

open Real

/-- The scalar parameter set of the scripts: the input parameters together
with the derived scalars that the engines consume (magnetic field at
pericenter, cooling coefficient `b`, extremal Lorentz factors, pericenter
time), as in the "Derived-Parameter Calculator" of the spec.  Each field is
named after the corresponding module-level variable of `single_pulsar.py`. -/
structure Params where
  spin_down_L : ℝ
  particle_slope : ℝ
  epsilon_e : ℝ
  electron_mass : ℝ
  speed_light : ℝ
  electric_charge : ℝ
  pericenter_mag_field : ℝ
  gamma_min : ℝ
  gamma_max : ℝ
  b : ℝ
  pericenter_time : ℝ

/-- Normalization factor of the injected particle distribution
(`single_pulsar.py`, lines 120-122). -/
def Params.particle_distribution_norm (P : Params) : ℝ :=
  P.epsilon_e * P.spin_down_L * (P.particle_slope - 2) /
    (P.electron_mass * P.speed_light ^ (2 : ℕ) *
      (P.gamma_min ^ (2 - P.particle_slope) - P.gamma_max ^ (2 - P.particle_slope)))

/-- Cooling Lorentz factor gc1(t) (`single_pulsar.py`, line 130). -/
def gamma_cool_1 (P : Params) (t : ℝ) : ℝ :=
  P.gamma_max / (1 + t * P.b * P.gamma_max)

/-- Cooling Lorentz factor gc2(t) (`single_pulsar.py`, line 131). -/
def gamma_cool_2 (P : Params) (t : ℝ) : ℝ :=
  P.gamma_min / (1 + P.b * t * P.gamma_min)

/-- Range mask of the first piecewise branch (line 148):
`(gamma_table > gamma_min) * (gamma_table < gamma_cool_1[i])`. -/
def mask1 (P : Params) (t γ : ℝ) : Prop := P.gamma_min < γ ∧ γ < gamma_cool_1 P t

/-- Range mask of the second piecewise branch (line 154). -/
def mask2 (P : Params) (t γ : ℝ) : Prop := gamma_cool_1 P t < γ ∧ γ < P.gamma_max

/-- Range mask of the third piecewise branch (line 160). -/
def mask3 (P : Params) (t γ : ℝ) : Prop := gamma_cool_1 P t < γ ∧ γ < P.gamma_min

/-- Range mask of the fourth piecewise branch (line 167). -/
def mask4 (P : Params) (t γ : ℝ) : Prop := gamma_cool_2 P t < γ ∧ γ < P.gamma_min

/-- First masked branch (lines 148-151).  In NumPy the expression
`(1 - b*γ*t)**(particle_slope - 1)` is NaN when `1 - b*γ*t < 0`
(fractional power of a negative base); the product with the boolean mask is
then still NaN and `f[np.isnan(f)] = 0` replaces it by zero, so the
contribution is zero at exactly those points. -/
def branch1 (P : Params) (t γ : ℝ) : ℝ :=
  if 1 - P.b * γ * t < 0 then 0
  else if P.gamma_min < γ ∧ γ < gamma_cool_1 P t then
    1 - (1 - P.b * γ * t) ^ (P.particle_slope - 1)
  else 0

/-- Second masked branch (lines 153-157). -/
def branch2 (P : Params) (t γ : ℝ) : ℝ :=
  if gamma_cool_1 P t < γ ∧ γ < P.gamma_max then
    1 - (P.gamma_max / γ) ^ (1 - P.particle_slope)
  else 0

/-- Third masked branch (lines 159-164). -/
def branch3 (P : Params) (t γ : ℝ) : ℝ :=
  if gamma_cool_1 P t < γ ∧ γ < P.gamma_min then
    (1 - (P.gamma_max / P.gamma_min) ^ (1 - P.particle_slope)) *
      (P.gamma_min / γ) ^ (1 - P.particle_slope)
  else 0

/-- Fourth masked branch (lines 166-171); again NaN (hence a zero
contribution) when `1 - b*t*γ < 0`. -/
def branch4 (P : Params) (t γ : ℝ) : ℝ :=
  if 1 - P.b * t * γ < 0 then 0
  else if gamma_cool_2 P t < γ ∧ γ < P.gamma_min then
    (P.gamma_min / γ) ^ (1 - P.particle_slope) -
      (1 - P.b * t * γ) ^ (P.particle_slope - 1)
  else 0

/-- One entry of a pre-pericenter row of the particle distribution: the four
masked branches summed, then scaled by
`particle_distribution_norm * γ**(-1-particle_slope) / (b*(particle_slope-1))`
(lines 147-174). -/
def particle_distribution_pre (P : Params) (t γ : ℝ) : ℝ :=
  (branch1 P t γ + branch2 P t γ + branch3 P t γ + branch4 P t γ) *
    (P.particle_distribution_norm * γ ^ (-1 - P.particle_slope) /
      (P.b * (P.particle_slope - 1)))

/-- A full pre-pericenter row over the Lorentz-factor grid. -/
def preRow (P : Params) (gs : List ℝ) (t : ℝ) : List ℝ :=
  gs.map (particle_distribution_pre P t)

end

/-- Error-propagating map: the image list if every application succeeds,
the first error otherwise (NumPy raises on whole-array operations, so any
failing entry aborts the row). -/
def mapE {α β : Type} (f : α → Except Unit β) : List α → Except Unit (List β)
  | [] => .ok []
  | a :: l =>
    match f a with
    | .error e => .error e
    | .ok bv =>
      match mapE f l with
      | .error e => .error e
      | .ok bs => .ok (bv :: bs)

noncomputable section

open Real

/-- Number of entries of a list that are `≤ c`; models `np.sum(ts <= c)`. -/
def countLE (c : ℝ) : List ℝ → Nat
  | [] => 0
  | t :: ts => (if t ≤ c then 1 else 0) + countLE c ts

/-- Index of the last time step at or before the pericenter time, as in
`particle_distribution[np.sum(timestable <= pericenter_time) - 1]`
(`single_pulsar.py`, line 183). -/
def lastPreIndex (P : Params) (ts : List ℝ) : Nat :=
  countLE P.pericenter_time ts - 1

/-- Piecewise-linear interpolation through nodes `xs` with values `ys`,
as computed by `scipy.interpolate.interp1d(xs, ys)` at an in-range query. -/
def linInterp : List ℝ → List ℝ → ℝ → ℝ
  | x1 :: x2 :: xs, y1 :: y2 :: ys, q =>
    if q ≤ x2 then y1 + (y2 - y1) * (q - x1) / (x2 - x1)
    else linInterp (x2 :: xs) (y2 :: ys) q
  | _, y :: _, _ => y
  | _, [], _ => 0

/-- Evaluation of `interp1d(xs, ys)` at a finite query `v` with the default
`bounds_error=True`: a query below the first node or above the last raises
`ValueError`, otherwise the piecewise-linear value is returned. -/
def interp1d_eval (xs ys : List ℝ) (v : ℝ) : Except Unit ℝ :=
  if v < xs.headD 0 ∨ xs.getLastD 0 < v then .error ()
  else .ok (linInterp xs ys v)

/-- One entry of a post-pericenter row (`single_pulsar.py`, lines 180-189):
`g = 1 - b*γ*(t - pericenter_time)`; the row value is
`interp(log(γ/g)) * g**(-2)` with NaN mapped to zero.  For a grid point
`γ > 0`: if `g < 0` then `γ/g < 0`, `np.log` yields NaN, the interpolation
of a NaN query is NaN and the entry is zeroed; if `g = 0` then `γ/g = inf`
and the interpolant's bounds check raises; otherwise the finite query
`log(γ/g)` is interpolated (raising when out of the node range) and scaled
by `g**(-2) = (g^2)⁻¹`. -/
def post_entry (P : Params) (xs ys : List ℝ) (t γ : ℝ) : Except Unit ℝ :=
  if 1 - P.b * γ * (t - P.pericenter_time) < 0 then .ok 0
  else if 1 - P.b * γ * (t - P.pericenter_time) = 0 then .error ()
  else
    (interp1d_eval xs ys
        (Real.log (γ / (1 - P.b * γ * (t - P.pericenter_time))))).map
      (fun v => v * ((1 - P.b * γ * (t - P.pericenter_time)) ^ (2 : ℕ))⁻¹)

/-- A full post-pericenter row: the interpolant is built over the
log-Lorentz-factor grid from the row at the last pre-pericenter time step
(under the scripts' sorted time grid, `particle_distribution[lastPreIndex]`
is exactly `preRow` at that time). -/
def postRow (P : Params) (gs ts : List ℝ) (t : ℝ) : Except Unit (List ℝ) :=
  mapE
    (post_entry P (gs.map Real.log)
      (preRow P gs (ts.getD (lastPreIndex P ts) 0)) t) gs

/-- The Particle Distribution Table (`single_pulsar.py`, lines 142-189): one
row per time step; the pre-pericenter branch for `t ≤ pericenter_time`, the
interpolated adiabatic remap afterwards.  An out-of-domain interpolation
query anywhere aborts the computation (scipy raises `ValueError`). -/
def particle_distribution (P : Params) (gs ts : List ℝ) :
    Except Unit (List (List ℝ)) :=
  mapE
    (fun t =>
      if t ≤ P.pericenter_time then .ok (preRow P gs t)
      else postRow P gs ts t) ts

/-- Modelled from the spec (section 4.2): the post-pericenter row as the spec
describes it — take the last distribution row computed at or before the
pericenter time, build a continuous interpolant over its log-Lorentz-factor
domain, evaluate it at the transformed argument `γ / g(t)` with
`g(t) = 1 - b·γ·(t - pericenter_time)`, scale by `g(t)^-2`, and map
not-a-number results to zero. -/
def adiabatic_remap_row (P : Params) (prev gs : List ℝ) (t : ℝ) : List ℝ :=
  gs.map fun γ =>
    if 1 - P.b * γ * (t - P.pericenter_time) < 0 then 0
    else if 1 - P.b * γ * (t - P.pericenter_time) = 0 then 0
    else
      linInterp (gs.map Real.log) prev
          (Real.log (γ / (1 - P.b * γ * (t - P.pericenter_time)))) *
        ((1 - P.b * γ * (t - P.pericenter_time)) ^ (2 : ℕ))⁻¹

/-- Modelled from the spec (section 8): the pure injection power law (no
cooling), the injected `Q(γ) = particle_distribution_norm * γ^(-particle_slope)`
of eqn. 6 that the spec claims the `t = 0` row reduces to. -/
def injection_power_law (P : Params) (γ : ℝ) : ℝ :=
  P.particle_distribution_norm * γ ^ (-P.particle_slope)

/-! ### The synchrotron spectrum engine -/

/-- The dimensionless frequency ratio `x = nu/nu_c`
(`single_pulsar.py`, lines 208-211):
`4π·m_e·c·ν / (3·e·B·γ²)`. -/
def x_val (P : Params) (ν γ : ℝ) : ℝ :=
  4 * Real.pi * P.electron_mass * P.speed_light * ν /
    (3 * P.electric_charge * P.pericenter_mag_field * γ ^ (2 : ℕ))

/-- Single-particle synchrotron emissivity `p_single` at ratio `xv`
(lines 215-224): zero unless `10^-20 ≤ xv ≤ 100`, otherwise the
synchrotron-power prefactor times `10**f_interp(log10 xv)`, where
`f_interp` interpolates the kernel table `(kxs, kys)` in log10-log10
space. -/
def p_single (P : Params) (kxs kys : List ℝ) (xv : ℝ) : ℝ :=
  if (10 : ℝ) ^ (-20 : ℤ) ≤ xv ∧ xv ≤ 100 then
    Real.sqrt 3 * P.electric_charge ^ (3 : ℕ) * P.pericenter_mag_field /
        (P.electron_mass * P.speed_light ^ (2 : ℕ)) *
      (10 : ℝ) ^ (linInterp kxs kys (Real.logb 10 xv))
  else 0

/-- The fixed logarithmic grid step `Δ(ln γ)` of the Riemann sum,
computed once from the first two grid points
(`np.log(gamma_table[1]) - np.log(gamma_table[0])`, line 232). -/
def delta_ln_gamma (gs : List ℝ) : ℝ :=
  Real.log (gs.getD 1 0) - Real.log (gs.getD 0 0)

/-- One entry of the synchrotron power table (lines 228-234): the frequency
times the sum over the Lorentz-factor grid of
`γ · Δ(ln γ) · p_single(ν, γ) · distribution(t, γ)`, the distribution row
being paired with the grid elementwise. -/
def synchrotron_pow (P : Params) (kxs kys gs pdrow : List ℝ) (ν : ℝ) : ℝ :=
  ν * ((List.zip gs pdrow).map
    (fun z => z.1 * delta_ln_gamma gs * p_single P kxs kys (x_val P ν z.1) * z.2)).sum

/-- Modelled from the spec (section 4.4): the νLν-style radiated power as the
spec words it — for each (time, frequency) pair, the fixed-log-step Riemann
sum over the Lorentz-factor grid of
`γ · Δ(ln γ) · emissivity(ν, γ) · distribution(t, γ)`, multiplied by the
frequency. -/
def synchrotron_pow_spec (P : Params) (kxs kys gs pdrow : List ℝ) (ν : ℝ) : ℝ :=
  ν * ∑ k ∈ Finset.range gs.length,
    gs.getD k 0 * delta_ln_gamma gs *
      p_single P kxs kys (x_val P ν (gs.getD k 0)) * pdrow.getD k 0

/-! ### The concrete parameter set of `single_pulsar.py` -/

namespace SinglePulsar

/-- Electron mass in grams (line 39). -/
def electron_mass : ℝ := 9.10938 * (10 : ℝ) ^ (-28 : ℤ)

/-- Speed of light in cm/s (line 42). -/
def speed_light : ℝ := 3 * (10 : ℝ) ^ (10 : ℕ)

/-- Thomson cross-section in cm² (line 45). -/
def thomson_cross_section : ℝ := 6.6524 * (10 : ℝ) ^ (-25 : ℤ)

/-- Electric charge in statcoulomb (line 48). -/
def electric_charge : ℝ := 4.8032068 * (10 : ℝ) ^ (-10 : ℤ)

/-- Spin-down luminosity in erg/s (line 58). -/
def spin_down_L : ℝ := 3 * (10 : ℝ) ^ (35 : ℕ)

/-- Slope of the injected particle distribution (line 61). -/
def particle_slope : ℝ := 2.2

/-- Fractions of energy in accelerated electrons and magnetic fields
(lines 64-65). -/
def epsilon_e : ℝ := 0.1

def epsilon_B : ℝ := 0.1

/-- Particle number density at the Bondi radius in cm⁻³ (line 68). -/
def Bondi_num_den : ℝ := (10 : ℝ) ^ (2 : ℕ)

/-- Minimum Lorentz factor of the injected distribution (line 71). -/
def gamma_min : ℝ := (10 : ℝ) ^ (3 : ℕ)

/-- Pericenter distance and Bondi radius in cm (lines 74-75). -/
def pericenter_dist : ℝ := 5 * (10 : ℝ) ^ (16 : ℕ)

def Bondi_radius : ℝ := (10 : ℝ) ^ (17 : ℕ)

/-- Alpha-viscosity parameter of the disk (line 80). -/
def alpha_viscosity : ℝ := 0.01

/-- Pericenter time in seconds (line 84). -/
def pericenter_time : ℝ :=
  3 * (10 : ℝ) ^ (7 : ℕ) * (pericenter_dist / (10 : ℝ) ^ (16 : ℕ)) ^ ((3 : ℝ) / 2)

/-- Accretion timescale in seconds (line 87). -/
def accretion_time : ℝ :=
  600 * pericenter_time * (alpha_viscosity / 0.01)⁻¹

/-- Magnetic field strength at the pericenter distance in Gauss
(lines 97-98). -/
def pericenter_mag_field : ℝ :=
  0.007 * Real.sqrt ((epsilon_B / 0.1) * (Bondi_num_den / 100) *
      (Bondi_radius / (10 : ℝ) ^ (17 : ℕ))) *
    (pericenter_dist / (10 : ℝ) ^ (16 : ℕ))⁻¹

/-- Maximum Lorentz factor assuming Bohm acceleration (lines 112-114). -/
def gamma_max : ℝ :=
  1.4 * (10 : ℝ) ^ (9 : ℕ) *
      ((epsilon_B / 0.1) * (Bondi_num_den / 100) *
        (Bondi_radius / (10 : ℝ) ^ (17 : ℕ))) ^ (-(1 : ℝ) / 4) *
    (pericenter_dist / (10 : ℝ) ^ (16 : ℕ)) ^ ((1 : ℝ) / 2)

/-- Cooling coefficient `b` (lines 125-126). -/
def b : ℝ :=
  pericenter_mag_field ^ (2 : ℕ) * thomson_cross_section /
    (6 * Real.pi * electron_mass * speed_light)

/-- The time grid (lines 91-92): fixed multiples of the pericenter time. -/
def timestable : List ℝ :=
  [(10 : ℝ) ^ (-6 : ℤ) * pericenter_time, (10 : ℝ) ^ (-4 : ℤ) * pericenter_time,
   (10 : ℝ) ^ (-2 : ℤ) * pericenter_time, 1 * pericenter_time,
   10 * pericenter_time, 50 * pericenter_time, 100 * pericenter_time,
   (accretion_time / pericenter_time) * pericenter_time]

/-- The full parameter set of `single_pulsar.py` as a `Params` value. -/
def params : Params :=
  { spin_down_L := spin_down_L
    particle_slope := particle_slope
    epsilon_e := epsilon_e
    electron_mass := electron_mass
    speed_light := speed_light
    electric_charge := electric_charge
    pericenter_mag_field := pericenter_mag_field
    gamma_min := gamma_min
    gamma_max := gamma_max
    b := b
    pericenter_time := pericenter_time }

end SinglePulsar

/-- A small well-formed parameter set (slope 2.2 as in the scripts), used to
instantiate the parameterized theorems at concrete values. -/
def toyParams : Params :=
  { spin_down_L := 1
    particle_slope := 2.2
    epsilon_e := 1
    electron_mass := 1
    speed_light := 1
    electric_charge := 1
    pericenter_mag_field := 1
    gamma_min := 2
    gamma_max := 4
    b := 1
    pericenter_time := 1 }

/-- The same toy parameter set with the pericenter time at 0, so that later
time-grid entries exercise the post-pericenter branch. -/
def toyParams0 : Params :=
  { spin_down_L := 1
    particle_slope := 2.2
    epsilon_e := 1
    electron_mass := 1
    speed_light := 1
    electric_charge := 1
    pericenter_mag_field := 1
    gamma_min := 2
    gamma_max := 4
    b := 1
    pericenter_time := 0 }

end

/-! ### List and `mapE` helper lemmas -/

theorem mapE_nil {α β : Type} (f : α → Except Unit β) : mapE f [] = .ok [] := rfl

theorem mapE_cons {α β : Type} (f : α → Except Unit β) (a : α) (l : List α) :
    mapE f (a :: l) =
      match f a with
      | .error e => .error e
      | .ok bv =>
        match mapE f l with
        | .error e => .error e
        | .ok bs => .ok (bv :: bs) := rfl

theorem mapE_ok_forall₂ {α β : Type} (f : α → Except Unit β) (l : List α) :
    ∀ bs : List β, mapE f l = .ok bs →
      List.Forall₂ (fun a bv => f a = .ok bv) l bs := by
  induction l with
  | nil =>
    intro bs h
    rw [mapE_nil] at h
    cases h
    exact List.Forall₂.nil
  | cons a l ih =>
    intro bs h
    rw [mapE_cons] at h
    cases hfa : f a with
    | error e => rw [hfa] at h; cases h
    | ok bv =>
      rw [hfa] at h
      cases hml : mapE f l with
      | error e => rw [hml] at h; cases h
      | ok bs2 =>
        rw [hml] at h
        cases h
        exact List.Forall₂.cons hfa (ih bs2 hml)

theorem mapE_ok_of_forall {α β : Type} (f : α → Except Unit β) (l : List α)
    (h : ∀ a ∈ l, ∃ bv, f a = .ok bv) : ∃ bs, mapE f l = .ok bs := by
  induction l with
  | nil => exact ⟨[], rfl⟩
  | cons a l ih =>
    obtain ⟨bv, hbv⟩ := h a (by simp)
    obtain ⟨bs, hbs⟩ := ih (fun x hx => h x (by simp [hx]))
    exact ⟨bv :: bs, by rw [mapE_cons, hbv, hbs]⟩

theorem forall₂_mem_right {α β : Type} {R : α → β → Prop} :
    ∀ {l : List α} {bs : List β}, List.Forall₂ R l bs →
      ∀ bv ∈ bs, ∃ a ∈ l, R a bv := by
  intro l bs h
  induction h with
  | nil => intro bv hbv; cases hbv
  | cons hab _ ih =>
    intro bv hbv
    rcases List.mem_cons.mp hbv with h1 | h2
    · exact ⟨_, by simp, h1 ▸ hab⟩
    · obtain ⟨a, ha, hr⟩ := ih bv h2
      exact ⟨a, by simp [ha], hr⟩

theorem forall₂_getD {α β : Type} {R : α → β → Prop} :
    ∀ {l : List α} {bs : List β}, List.Forall₂ R l bs →
      ∀ (i : Nat), i < l.length → ∀ (d : α) (d2 : β),
        R (l.getD i d) (bs.getD i d2) := by
  intro l bs h
  induction h with
  | nil => intro i hi; cases hi
  | cons hab htail ih =>
    intro i hi d d2
    cases i with
    | zero => simpa using hab
    | succ j =>
      simp only [List.getD_cons_succ]
      exact ih j (by simpa using hi) d d2

theorem forall₂_eq_map {α β : Type} (f : α → β) :
    ∀ {l : List α} {bs : List β},
      List.Forall₂ (fun a bv => bv = f a) l bs → bs = l.map f := by
  intro l bs h
  induction h with
  | nil => rfl
  | cons hab _ ih => simp [ih, hab]

theorem countLE_le_length (c : ℝ) : ∀ ts : List ℝ, countLE c ts ≤ ts.length := by
  intro ts
  induction ts with
  | nil => simp [countLE]
  | cons t ts ih =>
    simp only [countLE, List.length_cons]
    split <;> omega

theorem countLE_eq_zero (c : ℝ) :
    ∀ ts : List ℝ, (∀ x ∈ ts, c < x) → countLE c ts = 0 := by
  intro ts h
  induction ts with
  | nil => rfl
  | cons t ts ih =>
    have ht := h t (by simp)
    simp only [countLE, if_neg (not_le.mpr ht), zero_add]
    exact ih fun x hx => h x (by simp [hx])

/-- In a sorted time grid with at least one entry at or before `c`, the entry
at index `countLE c ts - 1` (the index the scripts use for the last
pre-pericenter row) is itself at or before `c`. -/
theorem sorted_getD_countLE (c : ℝ) :
    ∀ ts : List ℝ, List.Sorted (· ≤ ·) ts → 0 < countLE c ts →
      ts.getD (countLE c ts - 1) 0 ≤ c := by
  intro ts
  induction ts with
  | nil => intro _ h; simp [countLE] at h
  | cons t ts ih =>
    intro hs hpos
    rw [List.sorted_cons] at hs
    by_cases htc : t ≤ c
    · simp only [countLE, if_pos htc]
      cases h0 : countLE c ts with
      | zero => simpa using htc
      | succ n =>
        have := ih hs.2 (by omega)
        rw [h0] at this
        simpa using this
    · have hz : countLE c ts = 0 :=
        countLE_eq_zero c ts fun x hx => lt_of_lt_of_le (not_le.mp htc) (hs.1 x hx)
      simp [countLE, if_neg htc, hz] at hpos

theorem getD_mem_of_lt {l : List ℝ} {i : Nat} (hi : i < l.length) (d : ℝ) :
    l.getD i d ∈ l := by
  rw [List.getD_eq_getElem l d hi]
  exact l.getElem_mem hi

/-! ### Non-negativity of linear interpolation -/

theorem linInterp_nonneg (xs : List ℝ) :
    ∀ (ys : List ℝ) (q : ℝ), List.Chain' (· < ·) xs →
      (∀ y ∈ ys, 0 ≤ y) → (∀ x1 ∈ xs.head?, x1 ≤ q) →
      0 ≤ linInterp xs ys q := by
  induction xs with
  | nil =>
    intro ys q _ hy _
    cases ys with
    | nil => simp [linInterp]
    | cons y ys => simpa [linInterp] using hy y (by simp)
  | cons x1 xs ih =>
    intro ys q hchain hy hhead
    cases xs with
    | nil =>
      cases ys with
      | nil => simp [linInterp]
      | cons y ys => simpa [linInterp] using hy y (by simp)
    | cons x2 xs2 =>
      cases ys with
      | nil => simp [linInterp]
      | cons y1 ys1 =>
        cases ys1 with
        | nil => simpa [linInterp] using hy y1 (by simp)
        | cons y2 ys2 =>
          have hx12 : x1 < x2 := (List.chain'_cons.mp hchain).1
          have hx1q : x1 ≤ q := hhead x1 (by simp)
          rw [linInterp]
          split
          · rename_i hqx2
            have hr0 : 0 ≤ (q - x1) / (x2 - x1) :=
              div_nonneg (by linarith) (by linarith)
            have hr1 : (q - x1) / (x2 - x1) ≤ 1 :=
              (div_le_one (by linarith)).mpr (by linarith)
            have hy1 : 0 ≤ y1 := hy y1 (by simp)
            have hy2 : 0 ≤ y2 := hy y2 (by simp)
            rw [mul_div_assoc]
            nlinarith [mul_nonneg hy2 hr0, mul_nonneg hy1 (sub_nonneg.mpr hr1)]
          · rename_i hqx2
            exact ih (y2 :: ys2) q hchain.tail
              (fun y hyy => hy y (by simp [List.mem_cons] at hyy ⊢; tauto))
              (fun x hx => by
                simp at hx
                subst hx
                linarith [not_le.mp hqx2])

/-! ### Non-negativity of the piecewise branches -/

theorem gamma_cool_1_pos (P : Params) (t : ℝ) (hb : 0 ≤ P.b) (ht : 0 ≤ t)
    (hgmax : 0 < P.gamma_max) : 0 < gamma_cool_1 P t := by
  have hden : (0:ℝ) < 1 + t * P.b * P.gamma_max := by
    nlinarith [mul_nonneg (mul_nonneg ht hb) hgmax.le]
  exact div_pos hgmax hden

theorem gamma_cool_2_pos (P : Params) (t : ℝ) (hb : 0 ≤ P.b) (ht : 0 ≤ t)
    (hgmin : 0 < P.gamma_min) : 0 < gamma_cool_2 P t := by
  have hden : (0:ℝ) < 1 + P.b * t * P.gamma_min := by
    nlinarith [mul_nonneg (mul_nonneg hb ht) hgmin.le]
  exact div_pos hgmin hden

theorem branch1_nonneg (P : Params) (t γ : ℝ) (hb : 0 ≤ P.b) (ht : 0 ≤ t)
    (hgmin : 0 ≤ P.gamma_min) (hp : 1 ≤ P.particle_slope) :
    0 ≤ branch1 P t γ := by
  rw [branch1]
  split
  · exact le_refl 0
  · rename_i hnan
    split
    · rename_i hm
      have hγ : 0 ≤ γ := le_trans hgmin hm.1.le
      have h1 : 0 ≤ 1 - P.b * γ * t := not_lt.mp hnan
      have h2 : 1 - P.b * γ * t ≤ 1 := by
        nlinarith [mul_nonneg (mul_nonneg hb hγ) ht]
      have := Real.rpow_le_one h1 h2 (by linarith : (0:ℝ) ≤ P.particle_slope - 1)
      linarith
    · exact le_refl 0

theorem branch2_nonneg (P : Params) (t γ : ℝ) (hb : 0 ≤ P.b) (ht : 0 ≤ t)
    (hgmax : 0 < P.gamma_max) (hp : 1 ≤ P.particle_slope) :
    0 ≤ branch2 P t γ := by
  rw [branch2]
  split
  · rename_i hm
    have hγ : 0 < γ := lt_trans (gamma_cool_1_pos P t hb ht hgmax) hm.1
    have hbase : 1 ≤ P.gamma_max / γ := (one_le_div hγ).mpr hm.2.le
    have := Real.rpow_le_one_of_one_le_of_nonpos hbase
      (by linarith : 1 - P.particle_slope ≤ 0)
    linarith
  · exact le_refl 0

theorem branch3_nonneg (P : Params) (t γ : ℝ) (hb : 0 ≤ P.b) (ht : 0 ≤ t)
    (hgmin : 0 < P.gamma_min) (hgg : P.gamma_min ≤ P.gamma_max)
    (hp : 1 ≤ P.particle_slope) : 0 ≤ branch3 P t γ := by
  rw [branch3]
  split
  · rename_i hm
    have hgmax : 0 < P.gamma_max := lt_of_lt_of_le hgmin hgg
    have hγ : 0 < γ := lt_trans (gamma_cool_1_pos P t hb ht hgmax) hm.1
    have hbase : 1 ≤ P.gamma_max / P.gamma_min := (one_le_div hgmin).mpr hgg
    have h1 := Real.rpow_le_one_of_one_le_of_nonpos hbase
      (by linarith : 1 - P.particle_slope ≤ 0)
    have h2 : (0:ℝ) ≤ (P.gamma_min / γ) ^ (1 - P.particle_slope) :=
      Real.rpow_nonneg (div_nonneg hgmin.le hγ.le) _
    exact mul_nonneg (by linarith) h2
  · exact le_refl 0

theorem branch4_nonneg (P : Params) (t γ : ℝ) (hb : 0 ≤ P.b) (ht : 0 ≤ t)
    (hgmin : 0 < P.gamma_min) (hp : 1 ≤ P.particle_slope) :
    0 ≤ branch4 P t γ := by
  rw [branch4]
  split
  · exact le_refl 0
  · rename_i hnan
    split
    · rename_i hm
      have h0 : 0 ≤ 1 - P.b * t * γ := not_lt.mp hnan
      have hγ : 0 < γ := lt_trans (gamma_cool_2_pos P t hb ht hgmin) hm.1
      have hden : (0:ℝ) < 1 + P.b * t * P.gamma_min := by
        nlinarith [mul_nonneg (mul_nonneg hb ht) hgmin.le]
      have h3 : P.gamma_min < γ * (1 + P.b * t * P.gamma_min) := by
        have := hm.1
        rw [gamma_cool_2, div_lt_iff hden] at this
        exact this
      have hle : 1 - P.b * t * γ ≤ γ / P.gamma_min := by
        rw [le_div_iff hgmin]
        nlinarith
      have key : (1 - P.b * t * γ) ^ (P.particle_slope - 1) ≤
          (γ / P.gamma_min) ^ (P.particle_slope - 1) :=
        Real.rpow_le_rpow h0 hle (by linarith)
      have e1 : (P.gamma_min / γ) ^ (1 - P.particle_slope) =
          (γ / P.gamma_min) ^ (P.particle_slope - 1) := by
        rw [show (1 - P.particle_slope) = -(P.particle_slope - 1) by ring,
          Real.rpow_neg (div_nonneg hgmin.le hγ.le),
          ← Real.inv_rpow (div_nonneg hgmin.le hγ.le), inv_div]
      rw [e1]
      linarith
    · exact le_refl 0

/-! ### Positivity of the normalization factor and row non-negativity -/

theorem particle_distribution_norm_pos (P : Params) (he : 0 < P.epsilon_e)
    (hL : 0 < P.spin_down_L) (hm : 0 < P.electron_mass)
    (hc : 0 < P.speed_light) (hp : 2 < P.particle_slope)
    (hgmin : 0 < P.gamma_min) (hgg : P.gamma_min < P.gamma_max) :
    0 < P.particle_distribution_norm := by
  rw [Params.particle_distribution_norm]
  have hgmax : 0 < P.gamma_max := lt_trans hgmin hgg
  have key : P.gamma_max ^ (2 - P.particle_slope) <
      P.gamma_min ^ (2 - P.particle_slope) := by
    rw [show (2 - P.particle_slope) = -(P.particle_slope - 2) by ring,
      Real.rpow_neg hgmin.le, Real.rpow_neg hgmax.le]
    exact inv_lt_inv_of_lt (Real.rpow_pos_of_pos hgmin _)
      (Real.rpow_lt_rpow hgmin.le hgg (by linarith))
  apply div_pos
  · apply mul_pos (mul_pos he hL); linarith
  · exact mul_pos (mul_pos hm (pow_pos hc 2)) (by linarith)

theorem particle_distribution_pre_nonneg (P : Params) (he : 0 < P.epsilon_e)
    (hL : 0 < P.spin_down_L) (hm : 0 < P.electron_mass)
    (hc : 0 < P.speed_light) (hp : 2 < P.particle_slope) (hb : 0 < P.b)
    (hgmin : 0 < P.gamma_min) (hgg : P.gamma_min < P.gamma_max)
    (t γ : ℝ) (ht : 0 ≤ t) : 0 ≤ particle_distribution_pre P t γ := by
  have hp1 : 1 ≤ P.particle_slope := by linarith
  have hsum : 0 ≤ branch1 P t γ + branch2 P t γ + branch3 P t γ + branch4 P t γ := by
    have h1 := branch1_nonneg P t γ hb.le ht hgmin.le hp1
    have h2 := branch2_nonneg P t γ hb.le ht (lt_trans hgmin hgg) hp1
    have h3 := branch3_nonneg P t γ hb.le ht hgmin hgg.le hp1
    have h4 := branch4_nonneg P t γ hb.le ht hgmin hp1
    linarith
  by_cases hγ : 0 < γ
  · refine mul_nonneg hsum (div_nonneg (mul_nonneg ?_ ?_) ?_)
    · exact (particle_distribution_norm_pos P he hL hm hc hp hgmin hgg).le
    · exact Real.rpow_nonneg hγ.le _
    · nlinarith
  · have hγn : γ ≤ 0 := not_lt.mp hγ
    have hgc1 : 0 < gamma_cool_1 P t :=
      gamma_cool_1_pos P t hb.le ht (lt_trans hgmin hgg)
    have hgc2 : 0 < gamma_cool_2 P t := gamma_cool_2_pos P t hb.le ht hgmin
    have h1 : branch1 P t γ = 0 := by
      rw [branch1]
      split
      · rfl
      · rw [if_neg]
        rintro ⟨ha, -⟩
        linarith
    have h2 : branch2 P t γ = 0 := by
      rw [branch2, if_neg]
      rintro ⟨ha, -⟩
      linarith
    have h3 : branch3 P t γ = 0 := by
      rw [branch3, if_neg]
      rintro ⟨ha, -⟩
      linarith
    have h4 : branch4 P t γ = 0 := by
      rw [branch4]
      split
      · rfl
      · rw [if_neg]
        rintro ⟨ha, -⟩
        linarith
    rw [particle_distribution_pre, h1, h2, h3, h4]
    simp

/-! ### The `t = 0` row -/

theorem gamma_cool_1_at_zero (P : Params) : gamma_cool_1 P 0 = P.gamma_max := by
  rw [gamma_cool_1]
  norm_num

theorem gamma_cool_2_at_zero (P : Params) : gamma_cool_2 P 0 = P.gamma_min := by
  rw [gamma_cool_2]
  norm_num

theorem particle_distribution_pre_at_zero (P : Params)
    (hgg : P.gamma_min < P.gamma_max) (γ : ℝ) :
    particle_distribution_pre P 0 γ = 0 := by
  have h1 : branch1 P 0 γ = 0 := by
    rw [branch1]
    split
    · rfl
    · have : P.b * γ * 0 = 0 := mul_zero _
      rw [this, sub_zero, Real.one_rpow, sub_self]
      split <;> rfl
  have h2 : branch2 P 0 γ = 0 := by
    rw [branch2, gamma_cool_1_at_zero, if_neg]
    rintro ⟨ha, hc⟩
    linarith
  have h3 : branch3 P 0 γ = 0 := by
    rw [branch3, gamma_cool_1_at_zero, if_neg]
    rintro ⟨ha, hc⟩
    linarith
  have h4 : branch4 P 0 γ = 0 := by
    rw [branch4]
    split
    · rfl
    · rw [gamma_cool_2_at_zero, if_neg]
      rintro ⟨ha, hc⟩
      linarith
  rw [particle_distribution_pre, h1, h2, h3, h4]
  simp

/-! ### Claim C3: the basic script's unbound `isnan` -/

/-- C3: every execution of the basic script's particle-distribution loop
aborts with a NameError at the first NaN-masking statement (statement
index 1, line 104 of `pulsar_IR_flare_test.py`), because the bare name
`isnan` is bound neither by the script's globals nor by the builtins; hence
the loop body is never run to completion and no particle-distribution row is
ever finished, independently of the numeric input parameters (which do not
influence name resolution). -/
theorem C3_basic_script_isnan_name_error :
    runStmts (basic_script_globals ++ python_builtins) basic_loop_body 0 =
        .error ("NameError", 1) ∧
      "isnan" ∉ basic_script_globals ++ python_builtins ∧
      ∀ k : Nat,
        runStmts (basic_script_globals ++ python_builtins) basic_loop_body 0 ≠
          .ok k := by
  refine ⟨by rfl, by decide, ?_⟩
  intro k h
  rw [show runStmts (basic_script_globals ++ python_builtins) basic_loop_body 0 =
      .error ("NameError", 1) from rfl] at h
  cases h

/-! ### Claim C10: order and monotonicity of the cooling breaks -/

/-- C10: for b > 0, 1 < gamma_min < gamma_max and 0 ≤ t ≤ u, the cooling
break points are given by the closed forms
`gamma_cool_1(t) = gamma_max/(1 + b t gamma_max)` and
`gamma_cool_2(t) = gamma_min/(1 + b t gamma_min)`, they satisfy
`gamma_cool_2(t) < gamma_cool_1(t) ≤ gamma_max` and
`gamma_cool_2(t) ≤ gamma_min`, and both are non-increasing in time. -/
theorem C10_gamma_cool_order_monotone (P : Params) (hb : 0 < P.b)
    (h1 : 1 < P.gamma_min) (h2 : P.gamma_min < P.gamma_max)
    (t u : ℝ) (ht : 0 ≤ t) (htu : t ≤ u) :
    gamma_cool_1 P t = P.gamma_max / (1 + P.b * t * P.gamma_max) ∧
    gamma_cool_2 P t = P.gamma_min / (1 + P.b * t * P.gamma_min) ∧
    gamma_cool_2 P t < gamma_cool_1 P t ∧
    gamma_cool_1 P t ≤ P.gamma_max ∧
    gamma_cool_2 P t ≤ P.gamma_min ∧
    gamma_cool_1 P u ≤ gamma_cool_1 P t ∧
    gamma_cool_2 P u ≤ gamma_cool_2 P t := by
  have hgmin : (0:ℝ) < P.gamma_min := by linarith
  have hgmax : (0:ℝ) < P.gamma_max := by linarith
  have hu : (0:ℝ) ≤ u := le_trans ht htu
  have hd1 : (0:ℝ) < 1 + t * P.b * P.gamma_max := by
    nlinarith [mul_nonneg (mul_nonneg ht hb.le) hgmax.le]
  have hd2 : (0:ℝ) < 1 + P.b * t * P.gamma_min := by
    nlinarith [mul_nonneg (mul_nonneg hb.le ht) hgmin.le]
  have hd1u : (0:ℝ) < 1 + u * P.b * P.gamma_max := by
    nlinarith [mul_nonneg (mul_nonneg hu hb.le) hgmax.le]
  have hd2u : (0:ℝ) < 1 + P.b * u * P.gamma_min := by
    nlinarith [mul_nonneg (mul_nonneg hb.le hu) hgmin.le]
  refine ⟨?_, rfl, ?_, ?_, ?_, ?_, ?_⟩
  · rw [gamma_cool_1]
    congr 1
    ring
  · rw [gamma_cool_1, gamma_cool_2, div_lt_div_iff hd2 hd1]
    nlinarith [mul_nonneg (mul_nonneg hb.le ht) (mul_nonneg hgmin.le hgmax.le)]
  · rw [gamma_cool_1]
    exact div_le_self hgmax.le (by nlinarith [mul_nonneg (mul_nonneg ht hb.le) hgmax.le])
  · rw [gamma_cool_2]
    exact div_le_self hgmin.le (by nlinarith [mul_nonneg (mul_nonneg hb.le ht) hgmin.le])
  · rw [gamma_cool_1, gamma_cool_1]
    refine div_le_div_of_nonneg_left hgmax.le hd1 ?_
    nlinarith [mul_nonneg (mul_nonneg (by linarith : (0:ℝ) ≤ u - t) hb.le) hgmax.le]
  · rw [gamma_cool_2, gamma_cool_2]
    refine div_le_div_of_nonneg_left hgmin.le hd2 ?_
    nlinarith [mul_nonneg (mul_nonneg hb.le (by linarith : (0:ℝ) ≤ u - t)) hgmin.le]

/-- C10 witness: the theorem instantiated at the toy parameter set with
t = 0, u = 1. -/
theorem C10_gamma_cool_order_monotone_witness :
    gamma_cool_1 toyParams 0 = toyParams.gamma_max / (1 + toyParams.b * 0 * toyParams.gamma_max) ∧
    gamma_cool_2 toyParams 0 = toyParams.gamma_min / (1 + toyParams.b * 0 * toyParams.gamma_min) ∧
    gamma_cool_2 toyParams 0 < gamma_cool_1 toyParams 0 ∧
    gamma_cool_1 toyParams 0 ≤ toyParams.gamma_max ∧
    gamma_cool_2 toyParams 0 ≤ toyParams.gamma_min ∧
    gamma_cool_1 toyParams 1 ≤ gamma_cool_1 toyParams 0 ∧
    gamma_cool_2 toyParams 1 ≤ gamma_cool_2 toyParams 0 :=
  C10_gamma_cool_order_monotone toyParams (by norm_num [toyParams])
    (by norm_num [toyParams]) (by norm_num [toyParams]) 0 1 (by norm_num)
    (by norm_num)

/-! ### Claim C6: the row at t = 0 -/

/-- C6 counterexample: the claimed reduction of the t = 0 row to the pure
injection power law fails.  At the toy parameter set and γ = 3, which lies
inside the support [gamma_min, gamma_max] = [2, 4], the four-branch
piecewise row at t = 0 evaluates to 0 (branch 1 yields 1 - 1^(slope-1) = 0
on its whole range and the other three masks are empty), whereas the
injection power law is strictly positive there. -/
theorem C6_counterexample_t_zero_not_injection :
    toyParams.gamma_min ≤ 3 ∧ (3:ℝ) ≤ toyParams.gamma_max ∧
    particle_distribution_pre toyParams 0 3 ≠ injection_power_law toyParams 3 := by
  refine ⟨by norm_num [toyParams], by norm_num [toyParams], ?_⟩
  rw [particle_distribution_pre_at_zero toyParams (by norm_num [toyParams]) 3]
  have hpos : 0 < injection_power_law toyParams 3 := by
    rw [injection_power_law]
    refine mul_pos ?_ (Real.rpow_pos_of_pos (by norm_num) _)
    exact particle_distribution_norm_pos toyParams (by norm_num [toyParams])
      (by norm_num [toyParams]) (by norm_num [toyParams])
      (by norm_num [toyParams]) (by norm_num [toyParams])
      (by norm_num [toyParams]) (by norm_num [toyParams])
  exact (ne_of_gt hpos).symm

/-- C6 (amended): at t = 0 the cooling break points satisfy
`gamma_cool_1(0) = gamma_max` and `gamma_cool_2(0) = gamma_min`, and the
four-branch piecewise row at t = 0 is identically zero — the injection power
law emerges only to first order in small t, not at t = 0 exactly. -/
theorem C6_amended_t_zero_row (P : Params) (hgg : P.gamma_min < P.gamma_max) :
    gamma_cool_1 P 0 = P.gamma_max ∧ gamma_cool_2 P 0 = P.gamma_min ∧
    ∀ γ : ℝ, particle_distribution_pre P 0 γ = 0 :=
  ⟨gamma_cool_1_at_zero P, gamma_cool_2_at_zero P,
    fun γ => particle_distribution_pre_at_zero P hgg γ⟩

/-- C6 witness: the amended theorem instantiated at the toy parameter set. -/
theorem C6_amended_t_zero_row_witness :
    gamma_cool_1 toyParams 0 = toyParams.gamma_max ∧
    gamma_cool_2 toyParams 0 = toyParams.gamma_min ∧
    ∀ γ : ℝ, particle_distribution_pre toyParams 0 γ = 0 :=
  C6_amended_t_zero_row toyParams (by norm_num [toyParams])

/-! ### Claim C7: structure of the synchrotron power sum -/

theorem zip_map_sum_eq (f : ℝ → ℝ → ℝ) :
    ∀ (gs pdrow : List ℝ), gs.length = pdrow.length →
      ((List.zip gs pdrow).map (fun z => f z.1 z.2)).sum =
        ∑ k ∈ Finset.range gs.length, f (gs.getD k 0) (pdrow.getD k 0) := by
  intro gs
  induction gs with
  | nil => intro pdrow _; simp
  | cons g gs ih =>
    intro pdrow h
    cases pdrow with
    | nil => simp at h
    | cons y ys =>
      simp only [List.zip_cons_cons, List.map_cons, List.sum_cons, List.length_cons]
      rw [Finset.sum_range_succ']
      simp only [List.getD_cons_succ, List.getD_cons_zero]
      rw [ih ys (by simpa using h)]
      ring

/-- C7: for every time step and frequency, the synchrotron engine's value is
the frequency times the Riemann sum over the Lorentz-factor grid of
`γ · Δ(ln γ) · p_single(ν, γ) · distribution(t, γ)`, where `Δ(ln γ)` is
computed once from the first two grid points, the ratio is
`x = 4π·m_e·c·ν / (3·e·B·γ²)`, and the emissivity is the synchrotron
prefactor times `10^(kernel interpolant at log10 x)` inside the valid
kernel domain (see `p_single`) and zero elsewhere. -/
theorem C7_synchrotron_pow_eq_spec (P : Params) (kxs kys gs pdrow : List ℝ)
    (ν : ℝ) (h : gs.length = pdrow.length) :
    synchrotron_pow P kxs kys gs pdrow ν =
      synchrotron_pow_spec P kxs kys gs pdrow ν ∧
    synchrotron_pow_spec P kxs kys gs pdrow ν =
      ν * ∑ k ∈ Finset.range gs.length,
        gs.getD k 0 * (Real.log (gs.getD 1 0) - Real.log (gs.getD 0 0)) *
          p_single P kxs kys
            (4 * Real.pi * P.electron_mass * P.speed_light * ν /
              (3 * P.electric_charge * P.pericenter_mag_field *
                (gs.getD k 0) ^ (2 : ℕ))) *
          pdrow.getD k 0 := by
  constructor
  · rw [synchrotron_pow, synchrotron_pow_spec,
      zip_map_sum_eq
        (fun a bv => a * delta_ln_gamma gs * p_single P kxs kys (x_val P ν a) * bv)
        gs pdrow h]
  · rw [synchrotron_pow_spec]
    simp only [delta_ln_gamma, x_val]

/-- C7 witness: the theorem instantiated at the toy parameter set, an empty
kernel table, the grid [1, 2], the distribution row [5, 7] and ν = 3. -/
theorem C7_synchrotron_pow_eq_spec_witness :
    synchrotron_pow toyParams [] [] [1, 2] [5, 7] 3 =
      synchrotron_pow_spec toyParams [] [] [1, 2] [5, 7] 3 ∧
    synchrotron_pow_spec toyParams [] [] [1, 2] [5, 7] 3 =
      3 * ∑ k ∈ Finset.range ([1, 2] : List ℝ).length,
        ([1, 2] : List ℝ).getD k 0 *
            (Real.log (([1, 2] : List ℝ).getD 1 0) -
              Real.log (([1, 2] : List ℝ).getD 0 0)) *
          p_single toyParams [] []
            (4 * Real.pi * toyParams.electron_mass * toyParams.speed_light * 3 /
              (3 * toyParams.electric_charge * toyParams.pericenter_mag_field *
                (([1, 2] : List ℝ).getD k 0) ^ (2 : ℕ))) *
          ([5, 7] : List ℝ).getD k 0 :=
  C7_synchrotron_pow_eq_spec toyParams [] [] [1, 2] [5, 7] 3 rfl

/-! ### Claim C8: the emissivity cutoff -/

/-- C8: a (frequency, Lorentz-factor) pair whose dimensionless ratio
`x = x_val(ν, γ)` falls outside [1e-20, 100] has exactly zero single-particle
emissivity, hence contributes zero to every synchrotron power sum; for any
ratio inside the interval (endpoints included) the emissivity is the
synchrotron prefactor times `10^(kernel interpolant at log10 x)`. -/
theorem C8_emissivity_cutoff (P : Params) (kxs kys gs : List ℝ) (ν γ N : ℝ)
    (h : x_val P ν γ < (10:ℝ) ^ (-20 : ℤ) ∨ 100 < x_val P ν γ) :
    p_single P kxs kys (x_val P ν γ) = 0 ∧
    γ * delta_ln_gamma gs * p_single P kxs kys (x_val P ν γ) * N = 0 ∧
    ∀ y : ℝ, (10:ℝ) ^ (-20 : ℤ) ≤ y → y ≤ 100 →
      p_single P kxs kys y =
        Real.sqrt 3 * P.electric_charge ^ (3 : ℕ) * P.pericenter_mag_field /
            (P.electron_mass * P.speed_light ^ (2 : ℕ)) *
          (10:ℝ) ^ (linInterp kxs kys (Real.logb 10 y)) := by
  have h0 : p_single P kxs kys (x_val P ν γ) = 0 := by
    rw [p_single, if_neg]
    rintro ⟨h1, h2⟩
    rcases h with h | h
    · linarith
    · linarith
  refine ⟨h0, by rw [h0]; ring, ?_⟩
  intro y hy1 hy2
  rw [p_single, if_pos ⟨hy1, hy2⟩]

/-- C8 witness: at the toy parameter set, ν = 100 and γ = 1, the ratio is
400π/3 > 100, so the emissivity vanishes. -/
theorem C8_emissivity_cutoff_witness :
    p_single toyParams [] [] (x_val toyParams 100 1) = 0 :=
  (C8_emissivity_cutoff toyParams [] [] [] 100 1 0
    (Or.inr (by
      rw [x_val]
      have hπ := Real.pi_gt_three
      simp only [toyParams]
      norm_num
      nlinarith))).1

/-! ### Claim C1: non-negativity of the particle distribution table -/

theorem mapE_cons_ok {α β : Type} (f : α → Except Unit β) (a : α) (l : List α)
    (bv : β) (h : f a = .ok bv) :
    mapE f (a :: l) =
      match mapE f l with
      | .error e => .error e
      | .ok bs => .ok (bv :: bs) := by
  rw [mapE_cons, h]

theorem mapE_cons_error {α β : Type} (f : α → Except Unit β) (a : α)
    (l : List α) (e : Unit) (h : f a = .error e) : mapE f (a :: l) = .error e := by
  rw [mapE_cons, h]

theorem chain_log_of_chain : ∀ gs : List ℝ, (∀ γ ∈ gs, 1 ≤ γ) →
    List.Chain' (· < ·) gs → List.Chain' (· < ·) (gs.map Real.log) := by
  intro gs
  induction gs with
  | nil => intro _ _; simp
  | cons a gs ih =>
    intro h1 h2
    cases gs with
    | nil => simp
    | cons c gs2 =>
      rw [List.map_cons, List.map_cons, List.chain'_cons]
      refine ⟨?_, ?_⟩
      · exact Real.log_lt_log (by linarith [h1 a (by simp)])
          (List.chain'_cons.mp h2).1
      · have := ih (fun γ hγ => h1 γ (by simp [hγ])) (List.chain'_cons.mp h2).2
        rw [List.map_cons] at this
        exact this

/-- A successful post-pericenter entry is non-negative, provided the
interpolation nodes are strictly increasing and the interpolated row is
entrywise non-negative. -/
theorem post_entry_nonneg (P : Params) (xs ys : List ℝ) (t γ v : ℝ)
    (hchain : List.Chain' (· < ·) xs) (hys : ∀ y ∈ ys, 0 ≤ y)
    (hok : post_entry P xs ys t γ = .ok v) : 0 ≤ v := by
  rw [post_entry] at hok
  split at hok
  · cases hok
    exact le_refl 0
  · split at hok
    · cases hok
    · rw [interp1d_eval] at hok
      split at hok
      · simp [Except.map] at hok
      · rename_i hbounds
        simp only [Except.map] at hok
        cases hok
        refine mul_nonneg ?_ (inv_nonneg.mpr (sq_nonneg _))
        refine linInterp_nonneg xs ys _ hchain hys ?_
        intro x1 hx1
        have hlo : ¬ (Real.log (γ / (1 - P.b * γ * (t - P.pericenter_time))) <
            xs.headD 0) := fun hc => hbounds (Or.inl hc)
        cases xs with
        | nil => cases hx1
        | cons x xs2 =>
          simp only [List.head?_cons, Option.mem_some_iff] at hx1
          subst hx1
          simpa using not_lt.mp hlo

/-- C1: every entry of the particle distribution table produced by the
engine — the four masked piecewise branches summed and scaled by the
normalization factor at time steps at or before the pericenter time, the
interpolated adiabatic remap afterwards — is non-negative, for any physical
parameter set (positive energy fraction, luminosity, electron mass, speed of
light and cooling coefficient, slope above 2, `0 < gamma_min < gamma_max`),
any strictly increasing Lorentz-factor grid with entries ≥ 1, and any sorted
non-negative time grid with at least one pre-pericenter step. -/
theorem C1_particle_distribution_nonneg (P : Params) (he : 0 < P.epsilon_e)
    (hL : 0 < P.spin_down_L) (hm : 0 < P.electron_mass)
    (hc : 0 < P.speed_light) (hp : 2 < P.particle_slope) (hb : 0 < P.b)
    (hgmin : 0 < P.gamma_min) (hgg : P.gamma_min < P.gamma_max)
    (gs ts : List ℝ) (hgs1 : ∀ γ ∈ gs, 1 ≤ γ)
    (hgs2 : List.Chain' (· < ·) gs) (hts : ∀ t ∈ ts, 0 ≤ t)
    (hsort : List.Sorted (· ≤ ·) ts)
    (hcnt : 0 < countLE P.pericenter_time ts) (rows : List (List ℝ))
    (hok : particle_distribution P gs ts = .ok rows) :
    ∀ row ∈ rows, ∀ v ∈ row, 0 ≤ v := by
  have hf := mapE_ok_forall₂ _ ts rows hok
  intro row hrow v hv
  obtain ⟨t, htmem, hrt⟩ := forall₂_mem_right hf row hrow
  have ht0 : 0 ≤ t := hts t htmem
  by_cases htp : t ≤ P.pericenter_time
  · rw [if_pos htp] at hrt
    cases hrt
    obtain ⟨γ, hγ, rfl⟩ := List.mem_map.mp hv
    exact particle_distribution_pre_nonneg P he hL hm hc hp hb hgmin hgg t γ ht0
  · rw [if_neg htp, postRow] at hrt
    have hf2 := mapE_ok_forall₂ _ gs row hrt
    obtain ⟨γ, hγmem, hpe⟩ := forall₂_mem_right hf2 v hv
    have hlp_lt : lastPreIndex P ts < ts.length := by
      have := countLE_le_length P.pericenter_time ts
      rw [lastPreIndex]
      omega
    have htprev_le : ts.getD (lastPreIndex P ts) 0 ≤ P.pericenter_time := by
      rw [lastPreIndex]
      exact sorted_getD_countLE _ ts hsort hcnt
    have htprev0 : 0 ≤ ts.getD (lastPreIndex P ts) 0 :=
      hts _ (getD_mem_of_lt hlp_lt 0)
    have hys : ∀ y ∈ preRow P gs (ts.getD (lastPreIndex P ts) 0), 0 ≤ y := by
      intro y hy
      obtain ⟨γ2, hγ2, rfl⟩ := List.mem_map.mp hy
      exact particle_distribution_pre_nonneg P he hL hm hc hp hb hgmin hgg _ γ2
        htprev0
    exact post_entry_nonneg P _ _ t γ v (chain_log_of_chain gs hgs1 hgs2) hys hpe

/-- C1 witness: the theorem instantiated at the toy parameter set, the grid
[1, 2] and the single pre-pericenter time step t = 0 (whose row is [0, 0]). -/
theorem C1_particle_distribution_nonneg_witness :
    particle_distribution toyParams [1, 2] [0] = .ok [[0, 0]] ∧
      ∀ row ∈ ([[(0:ℝ), 0]] : List (List ℝ)), ∀ v ∈ row, 0 ≤ v := by
  have hrow : preRow toyParams [1, 2] 0 = [0, 0] := by
    rw [preRow]
    simp [particle_distribution_pre_at_zero toyParams (by norm_num [toyParams])]
  have hok : particle_distribution toyParams [1, 2] [0] = .ok [[0, 0]] := by
    rw [particle_distribution,
      mapE_cons_ok _ _ _ _ (by
        rw [if_pos (by norm_num [toyParams] : (0:ℝ) ≤ toyParams.pericenter_time),
          hrow]),
      mapE_nil]
  refine ⟨hok, ?_⟩
  exact C1_particle_distribution_nonneg toyParams (by norm_num [toyParams])
    (by norm_num [toyParams]) (by norm_num [toyParams]) (by norm_num [toyParams])
    (by norm_num [toyParams]) (by norm_num [toyParams]) (by norm_num [toyParams])
    (by norm_num [toyParams]) [1, 2] [0] (by norm_num)
    (by norm_num [List.chain'_cons]) (by norm_num)
    (by simp [List.sorted_cons])
    (by norm_num [countLE, toyParams]) [[0, 0]] hok

/-! ### Claim C5: the post-pericenter row is the interpolated adiabatic remap -/

/-- The value delivered by a successful post-pericenter entry is exactly the
adiabatic remap of the interpolated previous row. -/
theorem post_entry_ok_eq (P : Params) (xs ys : List ℝ) (t γ v : ℝ)
    (hok : post_entry P xs ys t γ = .ok v) :
    v = (if 1 - P.b * γ * (t - P.pericenter_time) < 0 then 0
      else if 1 - P.b * γ * (t - P.pericenter_time) = 0 then 0
      else
        linInterp xs ys
            (Real.log (γ / (1 - P.b * γ * (t - P.pericenter_time)))) *
          ((1 - P.b * γ * (t - P.pericenter_time)) ^ (2 : ℕ))⁻¹) := by
  rw [post_entry] at hok
  split at hok
  · rename_i h1
    cases hok
    rw [if_pos h1]
  · rename_i h1
    split at hok
    · cases hok
    · rename_i h2
      rw [interp1d_eval] at hok
      split at hok
      · simp [Except.map] at hok
      · simp only [Except.map] at hok
        cases hok
        rw [if_neg h1, if_neg h2]

/-- C1/C5 shared fact: in a sorted grid the last pre-pericenter index is in
range. -/
theorem lastPreIndex_lt_length (P : Params) (ts : List ℝ)
    (hcnt : 0 < countLE P.pericenter_time ts) : lastPreIndex P ts < ts.length := by
  have := countLE_le_length P.pericenter_time ts
  rw [lastPreIndex]
  omega

/-- C5: for every time step strictly after the pericenter time, the row the
engine produces is obtained from the last table row computed at or before
the pericenter time by interpolating it over the log-Lorentz-factor grid,
evaluating the interpolant at `γ / g(t)` with
`g(t) = 1 - b·γ·(t - pericenter_time)`, scaling by `g(t)^-2`, and mapping
NaN to zero — i.e. it equals `adiabatic_remap_row` applied to that row. -/
theorem C5_post_pericenter_row (P : Params) (gs ts : List ℝ)
    (rows : List (List ℝ)) (hsort : List.Sorted (· ≤ ·) ts)
    (hcnt : 0 < countLE P.pericenter_time ts)
    (hok : particle_distribution P gs ts = .ok rows) (i : Nat)
    (hi : i < ts.length) (hpost : P.pericenter_time < ts.getD i 0) :
    rows.getD i [] =
      adiabatic_remap_row P (rows.getD (lastPreIndex P ts) []) gs
        (ts.getD i 0) := by
  have hf := mapE_ok_forall₂ _ ts rows hok
  have hRi := forall₂_getD hf i hi 0 []
  rw [if_neg (not_le.mpr hpost), postRow] at hRi
  have hRlp := forall₂_getD hf (lastPreIndex P ts)
    (lastPreIndex_lt_length P ts hcnt) 0 []
  rw [if_pos (by rw [lastPreIndex]; exact sorted_getD_countLE _ ts hsort hcnt)]
    at hRlp
  have hprev : rows.getD (lastPreIndex P ts) [] =
      preRow P gs (ts.getD (lastPreIndex P ts) 0) :=
    (Except.ok.inj hRlp).symm
  have hf2 := mapE_ok_forall₂ _ gs (rows.getD i []) hRi
  rw [adiabatic_remap_row, hprev]
  exact forall₂_eq_map _ (hf2.imp fun γ bv h => post_entry_ok_eq P _ _ _ γ bv h)

/-- C5 witness: at the toy parameter set with pericenter time 0, grid [1, 2]
and time grid [0, 2], the table succeeds (every post-pericenter remap factor
is negative, so the entries are NaN-masked to zero) and the row at index 1
equals the adiabatic remap of the row at the last pre-pericenter index. -/
theorem C5_post_pericenter_row_witness :
    List.getD [[(0:ℝ), 0], [0, 0]] 1 [] =
      adiabatic_remap_row toyParams0
        (List.getD [[(0:ℝ), 0], [0, 0]] (lastPreIndex toyParams0 [0, 2]) [])
        [1, 2] (List.getD [(0:ℝ), 2] 1 0) := by
  have hrow : preRow toyParams0 [1, 2] 0 = [0, 0] := by
    rw [preRow]
    simp [particle_distribution_pre_at_zero toyParams0 (by norm_num [toyParams0])]
  have hp1 : post_entry toyParams0 ([(1:ℝ), 2].map Real.log)
      (preRow toyParams0 [1, 2] (List.getD [(0:ℝ), 2] (lastPreIndex toyParams0 [0, 2]) 0))
      2 1 = .ok 0 := by
    rw [post_entry, if_pos (by norm_num [toyParams0])]
  have hp2 : post_entry toyParams0 ([(1:ℝ), 2].map Real.log)
      (preRow toyParams0 [1, 2] (List.getD [(0:ℝ), 2] (lastPreIndex toyParams0 [0, 2]) 0))
      2 2 = .ok 0 := by
    rw [post_entry, if_pos (by norm_num [toyParams0])]
  have hok : particle_distribution toyParams0 [1, 2] [0, 2] = .ok [[0, 0], [0, 0]] := by
    rw [particle_distribution,
      mapE_cons_ok _ _ _ _ (by
        rw [if_pos (by norm_num [toyParams0] : (0:ℝ) ≤ toyParams0.pericenter_time),
          hrow]),
      mapE_cons_ok _ _ _ ([0, 0] : List ℝ) (by
        rw [if_neg (by norm_num [toyParams0] :
            ¬ (2:ℝ) ≤ toyParams0.pericenter_time), postRow,
          mapE_cons_ok _ _ _ _ hp1, mapE_cons_ok _ _ _ _ hp2, mapE_nil]),
      mapE_nil]
  exact C5_post_pericenter_row toyParams0 [1, 2] [0, 2] [[0, 0], [0, 0]]
    (by simp [List.sorted_cons]) (by norm_num [countLE, toyParams0]) hok 1
    (by norm_num) (by norm_num [toyParams0])

/-! ### Claim C4: error behaviour of the engine -/

/-- C4 counterexample: the engine CAN raise.  At the toy parameter set with
pericenter time 0, grid [1, e] and time grid [0, 7/10], the post-pericenter
entry at γ = 1 has remap factor g = 1 - (7/10) = 3/10 > 0 and transformed
argument log(1/(3/10)) = log(10/3) > 1 = log(e), which lies above the
interpolant's node range [log 1, log e]; `interp1d`'s default bounds check
(`bounds_error=True`) raises `ValueError`, so the table evaluation aborts
with an error rather than producing a (possibly zero) row. -/
theorem C4_counterexample_raises :
    particle_distribution toyParams0 [1, Real.exp 1] [0, 7/10] = .error () := by
  have hg : 1 - toyParams0.b * 1 * (7 / 10 - toyParams0.pericenter_time) =
      3 / 10 := by
    norm_num [toyParams0]
  have hq : ((([(1:ℝ), Real.exp 1]).map Real.log).getLastD 0) <
      Real.log (1 / (1 - toyParams0.b * 1 * (7 / 10 - toyParams0.pericenter_time))) := by
    rw [hg]
    have hl : (([(1:ℝ), Real.exp 1]).map Real.log).getLastD 0 = 1 := by
      simp [Real.log_exp]
    rw [hl, show ((1:ℝ) / (3 / 10)) = 10 / 3 by norm_num,
      Real.lt_log_iff_exp_lt (by norm_num : (0:ℝ) < 10 / 3)]
    calc Real.exp 1 < 2.7182818286 := Real.exp_one_lt_d9
      _ < 10 / 3 := by norm_num
  have hpe : post_entry toyParams0 ([(1:ℝ), Real.exp 1].map Real.log)
      (preRow toyParams0 [1, Real.exp 1]
        (List.getD [(0:ℝ), 7/10] (lastPreIndex toyParams0 [0, 7/10]) 0))
      (7/10) 1 = .error () := by
    rw [post_entry, if_neg (by rw [hg]; norm_num), if_neg (by rw [hg]; norm_num),
      interp1d_eval, if_pos (Or.inr hq)]
    rfl
  rw [particle_distribution,
    mapE_cons_ok _ _ _ (preRow toyParams0 [1, Real.exp 1] 0) (by
      rw [if_pos (by norm_num [toyParams0] : (0:ℝ) ≤ toyParams0.pericenter_time)]),
    mapE_cons_error _ _ _ () (by
      rw [if_neg (by norm_num [toyParams0] :
          ¬ (7/10 : ℝ) ≤ toyParams0.pericenter_time), postRow,
        mapE_cons_error _ _ _ _ hpe])]

/-- C4 (amended): the pre-pericenter computation never raises for any
parameter set (degenerate inputs only yield NaN-masked, possibly all-zero
rows), and the post-pericenter branch never raises PROVIDED that, at each
post-pericenter step and grid point, the remap factor
`g = 1 - b·γ·(t - pericenter_time)` is either negative (the NaN route, which
is coerced to zero) or positive with the transformed argument `log(γ/g)`
inside the interpolant's node range; when `g = 0` or a finite transformed
argument falls outside the node range, `interp1d`'s bounds check raises
(see the counterexample). -/
theorem C4_amended_no_raise (P : Params) (gs ts : List ℝ)
    (h : ∀ t ∈ ts, P.pericenter_time < t → ∀ γ ∈ gs,
      1 - P.b * γ * (t - P.pericenter_time) < 0 ∨
      (0 < 1 - P.b * γ * (t - P.pericenter_time) ∧
        (gs.map Real.log).headD 0 ≤
          Real.log (γ / (1 - P.b * γ * (t - P.pericenter_time))) ∧
        Real.log (γ / (1 - P.b * γ * (t - P.pericenter_time))) ≤
          (gs.map Real.log).getLastD 0)) :
    (particle_distribution P gs ts).isOk = true := by
  have hall : ∀ t ∈ ts, ∃ r,
      (if t ≤ P.pericenter_time then Except.ok (preRow P gs t)
        else postRow P gs ts t) = .ok r := by
    intro t htmem
    by_cases htp : t ≤ P.pericenter_time
    · exact ⟨_, by rw [if_pos htp]⟩
    · rw [if_neg htp]
      have hpost := h t htmem (not_le.mp htp)
      have hforall : ∀ γ ∈ gs, ∃ bv,
          post_entry P (gs.map Real.log)
            (preRow P gs (ts.getD (lastPreIndex P ts) 0)) t γ = .ok bv := by
        intro γ hγ
        rcases hpost γ hγ with hneg | ⟨hpos, hlo, hhi⟩
        · exact ⟨0, by rw [post_entry, if_pos hneg]⟩
        · refine ⟨linInterp (gs.map Real.log)
              (preRow P gs (ts.getD (lastPreIndex P ts) 0))
              (Real.log (γ / (1 - P.b * γ * (t - P.pericenter_time)))) *
              ((1 - P.b * γ * (t - P.pericenter_time)) ^ (2 : ℕ))⁻¹, ?_⟩
          rw [post_entry, if_neg (not_lt.mpr hpos.le),
            if_neg (ne_of_gt hpos), interp1d_eval,
            if_neg (by push_neg; exact ⟨hlo, hhi⟩)]
          rfl
      obtain ⟨r, hr⟩ := mapE_ok_of_forall
        (post_entry P (gs.map Real.log)
          (preRow P gs (ts.getD (lastPreIndex P ts) 0)) t) gs hforall
      exact ⟨r, by rw [postRow]; exact hr⟩
  obtain ⟨rows, hrows⟩ := mapE_ok_of_forall _ ts hall
  rw [particle_distribution, hrows]
  rfl

/-- C4 witness: at the toy parameter set with pericenter time 0, grid [1, 2]
and time grid [0, 2], every post-pericenter remap factor is negative, so the
table evaluates without raising. -/
theorem C4_amended_no_raise_witness :
    (particle_distribution toyParams0 [1, 2] [0, 2]).isOk = true := by
  refine C4_amended_no_raise toyParams0 [1, 2] [0, 2] ?_
  intro t ht htp γ hγ
  rcases (by simpa using ht : t = 0 ∨ t = 2) with rfl | rfl
  · norm_num [toyParams0] at htp
  · rcases (by simpa using hγ : γ = 1 ∨ γ = 2) with rfl | rfl
    · left
      norm_num [toyParams0]
    · left
      norm_num [toyParams0]

/-! ### Claim C2: disjointness of the four range masks -/

/-- For any parameter set and time with `gamma_min ≤ gamma_cool_1(t)`, the
four range masks are pairwise disjoint. -/
theorem masks_pairwise_disjoint_of_le (P : Params) (t : ℝ)
    (hgm : P.gamma_min ≤ gamma_cool_1 P t) (γ : ℝ) :
    ¬(mask1 P t γ ∧ mask2 P t γ) ∧ ¬(mask1 P t γ ∧ mask3 P t γ) ∧
    ¬(mask1 P t γ ∧ mask4 P t γ) ∧ ¬(mask2 P t γ ∧ mask3 P t γ) ∧
    ¬(mask2 P t γ ∧ mask4 P t γ) ∧ ¬(mask3 P t γ ∧ mask4 P t γ) := by
  simp only [mask1, mask2, mask3, mask4]
  refine ⟨?_, ?_, ?_, ?_, ?_, ?_⟩ <;> rintro ⟨⟨a1, a2⟩, c1, c2⟩ <;> linarith

namespace SinglePulsar

theorem electron_mass_eq : electron_mass = 9.10938e-28 := by
  rw [electron_mass]
  norm_num

theorem speed_light_eq : speed_light = 3e10 := by
  rw [speed_light]
  norm_num

theorem thomson_eq : thomson_cross_section = 6.6524e-25 := by
  rw [thomson_cross_section]
  norm_num

theorem gamma_min_eq : gamma_min = 1000 := by
  rw [gamma_min]
  norm_num

theorem inner_sqrt_base_eq :
    (epsilon_B / 0.1) * (Bondi_num_den / 100) *
      (Bondi_radius / (10 : ℝ) ^ (17 : ℕ)) = 1 := by
  rw [epsilon_B, Bondi_num_den, Bondi_radius]
  norm_num

theorem dist_ratio_eq : pericenter_dist / (10 : ℝ) ^ (16 : ℕ) = 5 := by
  rw [pericenter_dist]
  norm_num

theorem pericenter_mag_field_eq : pericenter_mag_field = 7 / 5000 := by
  rw [pericenter_mag_field, inner_sqrt_base_eq, dist_ratio_eq, Real.sqrt_one]
  norm_num

theorem gamma_max_eq : gamma_max = 1.4e9 * Real.sqrt 5 := by
  rw [gamma_max, inner_sqrt_base_eq, dist_ratio_eq, Real.one_rpow,
    ← Real.sqrt_eq_rpow]
  norm_num

theorem pericenter_time_eq : pericenter_time = 3e7 * (5 * Real.sqrt 5) := by
  rw [pericenter_time, dist_ratio_eq,
    show ((3 : ℝ) / 2) = 1 + 1 / 2 by norm_num,
    Real.rpow_add (by norm_num : (0:ℝ) < 5), Real.rpow_one,
    ← Real.sqrt_eq_rpow]
  norm_num

theorem pericenter_time_nonneg : 0 ≤ pericenter_time := by
  rw [pericenter_time_eq]
  positivity

theorem b_nonneg : 0 ≤ b := by
  rw [b, pericenter_mag_field_eq, thomson_eq, electron_mass_eq, speed_light_eq]
  positivity

theorem gamma_max_nonneg : 0 ≤ gamma_max := by
  rw [gamma_max_eq]
  positivity

theorem sqrt_five_lb : 2.2 < Real.sqrt 5 :=
  (Real.lt_sqrt (by norm_num)).mpr (by norm_num)

theorem sqrt_five_ub : Real.sqrt 5 < 2.2361 :=
  (Real.sqrt_lt' (by norm_num)).mpr (by norm_num)

/-- The key numeric bound: at the pericenter time itself,
`pericenter_time * b * gamma_max ≤ 2784`. -/
theorem tp_b_gamma_max_le : pericenter_time * b * gamma_max ≤ 2784 := by
  have hπ := Real.pi_gt_three
  have hs2 : Real.sqrt 5 ^ (2 : ℕ) = 5 := Real.sq_sqrt (by norm_num)
  have hD : (0:ℝ) < 6 * Real.pi * 9.10938e-28 * 3e10 := by positivity
  rw [pericenter_time_eq, gamma_max_eq, b, pericenter_mag_field_eq, thomson_eq,
    electron_mass_eq, speed_light_eq]
  have e : 3e7 * (5 * Real.sqrt 5) *
      ((7 / 5000) ^ (2 : ℕ) * 6.6524e-25 / (6 * Real.pi * 9.10938e-28 * 3e10)) *
      (1.4e9 * Real.sqrt 5) =
      3e7 * 5 * 1.4e9 * ((7 / 5000) ^ (2 : ℕ) * 6.6524e-25) *
        Real.sqrt 5 ^ (2 : ℕ) / (6 * Real.pi * 9.10938e-28 * 3e10) := by
    ring
  rw [e, hs2, div_le_iff hD]
  nlinarith [hπ]

/-- With the concrete `single_pulsar.py` parameters,
`gamma_min ≤ gamma_cool_1(pericenter_time)`. -/
theorem gamma_min_le_gc1_tp :
    params.gamma_min ≤ gamma_cool_1 params params.pericenter_time := by
  have hkey : params.pericenter_time * params.b * params.gamma_max ≤ 2784 :=
    tp_b_gamma_max_le
  have hnn : 0 ≤ params.pericenter_time * params.b * params.gamma_max :=
    mul_nonneg (mul_nonneg pericenter_time_nonneg b_nonneg) gamma_max_nonneg
  have hden : (0:ℝ) < 1 + params.pericenter_time * params.b * params.gamma_max := by
    linarith
  have hgmax_lb : (3.08e9 : ℝ) ≤ params.gamma_max := by
    show (3.08e9 : ℝ) ≤ gamma_max
    rw [gamma_max_eq]
    nlinarith [sqrt_five_lb]
  have hgmin : params.gamma_min = 1000 := gamma_min_eq
  rw [gamma_cool_1, le_div_iff hden, hgmin]
  nlinarith [hkey, hgmax_lb]

end SinglePulsar

theorem gamma_cool_1_anti (P : Params) (hb : 0 ≤ P.b) (hgmax : 0 ≤ P.gamma_max)
    {t u : ℝ} (ht : 0 ≤ t) (htu : t ≤ u) :
    gamma_cool_1 P u ≤ gamma_cool_1 P t := by
  have hd1 : (0:ℝ) < 1 + t * P.b * P.gamma_max := by
    nlinarith [mul_nonneg (mul_nonneg ht hb) hgmax]
  rw [gamma_cool_1, gamma_cool_1]
  refine div_le_div_of_nonneg_left hgmax hd1 ?_
  nlinarith [mul_nonneg (mul_nonneg (by linarith : (0:ℝ) ≤ u - t) hb) hgmax]

theorem SinglePulsar.accretion_time_nonneg : 0 ≤ SinglePulsar.accretion_time := by
  rw [SinglePulsar.accretion_time, SinglePulsar.alpha_viscosity]
  have h1 := SinglePulsar.pericenter_time_nonneg
  have h2 : (((1e-2 : ℝ)) / 1e-2)⁻¹ = 1 := by norm_num
  rw [h2]
  nlinarith

/-- C2: in `single_pulsar.py`, for every time step of the time grid at or
before the pericenter time, the four Lorentz-factor range masks —
(gamma_min, gamma_cool_1(t)), (gamma_cool_1(t), gamma_max),
(gamma_cool_1(t), gamma_min) and (gamma_cool_2(t), gamma_min) — are pairwise
disjoint, so every grid point (indeed, every real γ) falls in exactly one of
the four ranges or in none of them.  (This uses the concrete parameter
values: through t = pericenter_time the cooling break `gamma_cool_1(t)`
stays above `gamma_min`, which keeps the third branch empty.) -/
theorem C2_masks_pairwise_disjoint :
    ∀ t ∈ SinglePulsar.timestable, t ≤ SinglePulsar.params.pericenter_time →
      ∀ γ : ℝ,
        ¬(mask1 SinglePulsar.params t γ ∧ mask2 SinglePulsar.params t γ) ∧
        ¬(mask1 SinglePulsar.params t γ ∧ mask3 SinglePulsar.params t γ) ∧
        ¬(mask1 SinglePulsar.params t γ ∧ mask4 SinglePulsar.params t γ) ∧
        ¬(mask2 SinglePulsar.params t γ ∧ mask3 SinglePulsar.params t γ) ∧
        ¬(mask2 SinglePulsar.params t γ ∧ mask4 SinglePulsar.params t γ) ∧
        ¬(mask3 SinglePulsar.params t γ ∧ mask4 SinglePulsar.params t γ) := by
  intro t ht htle γ
  have h1 := SinglePulsar.pericenter_time_nonneg
  have h2 := SinglePulsar.accretion_time_nonneg
  have ht0 : 0 ≤ t := by
    simp only [SinglePulsar.timestable, List.mem_cons,
      List.not_mem_nil, or_false] at ht
    rcases ht with rfl | rfl | rfl | rfl | rfl | rfl | rfl | rfl
    · exact mul_nonneg (by positivity) h1
    · exact mul_nonneg (by positivity) h1
    · exact mul_nonneg (by positivity) h1
    · exact mul_nonneg (by positivity) h1
    · exact mul_nonneg (by positivity) h1
    · exact mul_nonneg (by positivity) h1
    · exact mul_nonneg (by positivity) h1
    · exact mul_nonneg (div_nonneg h2 h1) h1
  have hgm : SinglePulsar.params.gamma_min ≤
      gamma_cool_1 SinglePulsar.params t :=
    le_trans SinglePulsar.gamma_min_le_gc1_tp
      (gamma_cool_1_anti SinglePulsar.params SinglePulsar.b_nonneg
        SinglePulsar.gamma_max_nonneg ht0 htle)
  exact masks_pairwise_disjoint_of_le SinglePulsar.params t hgm γ

/-- C2 witness: the first time step of the grid, with γ = 0. -/
theorem C2_masks_pairwise_disjoint_witness :
    ¬(mask1 SinglePulsar.params ((10:ℝ) ^ (-6 : ℤ) * SinglePulsar.pericenter_time) 0 ∧
      mask2 SinglePulsar.params ((10:ℝ) ^ (-6 : ℤ) * SinglePulsar.pericenter_time) 0) ∧
    ¬(mask1 SinglePulsar.params ((10:ℝ) ^ (-6 : ℤ) * SinglePulsar.pericenter_time) 0 ∧
      mask3 SinglePulsar.params ((10:ℝ) ^ (-6 : ℤ) * SinglePulsar.pericenter_time) 0) ∧
    ¬(mask1 SinglePulsar.params ((10:ℝ) ^ (-6 : ℤ) * SinglePulsar.pericenter_time) 0 ∧
      mask4 SinglePulsar.params ((10:ℝ) ^ (-6 : ℤ) * SinglePulsar.pericenter_time) 0) ∧
    ¬(mask2 SinglePulsar.params ((10:ℝ) ^ (-6 : ℤ) * SinglePulsar.pericenter_time) 0 ∧
      mask3 SinglePulsar.params ((10:ℝ) ^ (-6 : ℤ) * SinglePulsar.pericenter_time) 0) ∧
    ¬(mask2 SinglePulsar.params ((10:ℝ) ^ (-6 : ℤ) * SinglePulsar.pericenter_time) 0 ∧
      mask4 SinglePulsar.params ((10:ℝ) ^ (-6 : ℤ) * SinglePulsar.pericenter_time) 0) ∧
    ¬(mask3 SinglePulsar.params ((10:ℝ) ^ (-6 : ℤ) * SinglePulsar.pericenter_time) 0 ∧
      mask4 SinglePulsar.params ((10:ℝ) ^ (-6 : ℤ) * SinglePulsar.pericenter_time) 0) :=
  C2_masks_pairwise_disjoint ((10:ℝ) ^ (-6 : ℤ) * SinglePulsar.pericenter_time)
    (by simp [SinglePulsar.timestable])
    (by
      have := SinglePulsar.pericenter_time_nonneg
      show (10:ℝ) ^ (-6 : ℤ) * SinglePulsar.pericenter_time ≤
        SinglePulsar.pericenter_time
      have hz : (10:ℝ) ^ (-6 : ℤ) = 1 / 1000000 := by norm_num
      rw [hz]
      nlinarith) 0
